import Mathlib

/-!
Verification of the pull-request Slack notifier against its specification.

The development shallowly embeds the four source files of the repository:
`src/utils.ts` (stringify, normalizeError), `src/slack.ts` (generateBranchURL,
generateUser, isUserReviewer, getRequestedReviewers, getPullRequestDetail,
buildMessageContent), `src/types.ts` (the payload shapes) and the action
entry point (formatUserMapping, parseInput, isValidEvent, run).

JavaScript runtime values that the code manipulates dynamically are embedded
explicitly: JSON values as the inductive `Json` (numbers as exact decimals
m * 10 ^ e, which is faithful for every test the code performs on them),
possibly-undefined strings as `Option String`, and JavaScript truthiness as
explicit `jsTruthy...` functions.
-/

set_option maxHeartbeats 1000000

namespace Notifier

/-- A JSON value as produced by `JSON.parse`. A number literal is kept as an
exact decimal `mantissa * 10 ^ exponent` (the parser strips trailing zero
digits of the mantissa so that `0.50` and `0.5` coincide, as they do as
JavaScript doubles). -/
inductive Json where
  | null
  | bool (b : Bool)
  | num (mantissa : Int) (exponent : Int)
  | str (s : String)
  | arr (elems : List Json)
  | obj (fields : List (String × Json))
deriving Repr

/-- JavaScript truthiness of a JSON-decoded value: null, false, 0 and the
empty string are falsy; every array and object is truthy. -/
def jsTruthyJson : Json → Bool
  | Json.null => false
  | Json.bool b => b
  | Json.num m _ => m ≠ 0
  | Json.str s => s ≠ ""
  | Json.arr _ => true
  | Json.obj _ => true

/-- JavaScript truthiness of a possibly-undefined string (`undefined` and the
empty string are falsy). -/
def jsTruthyStr : Option String → Bool
  | none => false
  | some s => s ≠ ""

/-! JSON parsing, modelling `JSON.parse`.  The parser is fuel-based; the fuel
is only consumed when descending into a nested array or object, so an initial
fuel of the input length plus one can never run out. -/

/-- JSON whitespace characters (space, tab, line feed, carriage return). -/
def jsonWs (c : Char) : Bool :=
  c = ' ' || c = '\t' || c = '\n' || c = '\r'

/-- Drop leading JSON whitespace. -/
def skipWs : List Char → List Char
  | [] => []
  | c :: cs => if jsonWs c then skipWs cs else c :: cs

/-- Value of a hexadecimal digit. -/
def hexVal (c : Char) : Option Nat :=
  if '0' ≤ c ∧ c ≤ '9' then some (c.toNat - 48)
  else if 'a' ≤ c ∧ c ≤ 'f' then some (c.toNat - 87)
  else if 'A' ≤ c ∧ c ≤ 'F' then some (c.toNat - 55)
  else none

/-- Value of four hexadecimal digits. -/
def hex4 (a b c d : Char) : Option Nat := do
  let va ← hexVal a
  let vb ← hexVal b
  let vc ← hexVal c
  let vd ← hexVal d
  pure (va * 4096 + vb * 256 + vc * 16 + vd)

/-- Turn a code point into a character, mapping invalid scalar values (lone
surrogates) to the replacement character. -/
def codeToChar (n : Nat) : Char :=
  if n.isValidChar then Char.ofNat n else '�'

/-- Read the four (or, for a surrogate pair, ten) characters following a
backslash-u escape inside a JSON string. -/
def readUnicode (cs : List Char) : Option (Char × List Char) :=
  match cs with
  | a :: b :: c :: d :: rest =>
    match hex4 a b c d with
    | none => none
    | some n =>
      if 0xD800 ≤ n ∧ n ≤ 0xDBFF then
        match rest with
        | '\\' :: 'u' :: a2 :: b2 :: c2 :: d2 :: rest2 =>
          match hex4 a2 b2 c2 d2 with
          | some m =>
            if 0xDC00 ≤ m ∧ m ≤ 0xDFFF then
              some (codeToChar (0x10000 + (n - 0xD800) * 0x400 + (m - 0xDC00)), rest2)
            else some ('�', rest)
          | none => some ('�', rest)
        | _ => some ('�', rest)
      else if 0xDC00 ≤ n ∧ n ≤ 0xDFFF then some ('�', rest)
      else some (codeToChar n, rest)
  | _ => none

/-- Unescaped translation of a single-character JSON string escape. -/
def escChar (e : Char) : Option Char :=
  if e = '\"' then some '\"'
  else if e = '\\' then some '\\'
  else if e = '/' then some '/'
  else if e = 'b' then some (Char.ofNat 8)
  else if e = 'f' then some (Char.ofNat 12)
  else if e = 'n' then some '\n'
  else if e = 'r' then some '\r'
  else if e = 't' then some '\t'
  else none

/-- Parse the body of a JSON string (after the opening quote); returns the
content and the characters after the closing quote. -/
def parseStringAux : Nat → List Char → Option (List Char × List Char)
  | 0, _ => none
  | _ + 1, [] => none
  | fuel + 1, c :: cs =>
    if c = '\"' then some ([], cs)
    else if c = '\\' then
      match cs with
      | [] => none
      | e :: cs2 =>
        if e = 'u' then
          match readUnicode cs2 with
          | none => none
          | some (ch, rest) => (parseStringAux fuel rest).map fun r => (ch :: r.1, r.2)
        else
          match escChar e with
          | none => none
          | some ch => (parseStringAux fuel cs2).map fun r => (ch :: r.1, r.2)
    else if c.toNat < 32 then none
    else (parseStringAux fuel cs).map fun r => (c :: r.1, r.2)

/-- Split leading decimal digits from the rest. -/
def takeDigits (cs : List Char) : List Char × List Char :=
  match cs with
  | [] => ([], [])
  | c :: rest =>
    if c.isDigit then
      let (ds, r) := takeDigits rest
      (c :: ds, r)
    else ([], cs)

/-- Numeric value of a list of decimal digits. -/
def digitsToNat (cs : List Char) : Nat :=
  cs.foldl (fun acc c => acc * 10 + (c.toNat - 48)) 0

/-- Strip trailing zero digits of the mantissa into the exponent, so that the
embedded decimal representation of a number is canonical. -/
def canonNum : Nat → Int → Int → Json
  | 0, m, e => Json.num m e
  | f + 1, m, e => if m ≠ 0 ∧ m % 10 = 0 then canonNum f (m / 10) (e + 1) else Json.num m e

/-- Parse a JSON number literal beginning at the head of the input. -/
def parseNumber (cs : List Char) : Option (Json × List Char) :=
  let sign : Bool × List Char :=
    match cs with
    | '-' :: r => (true, r)
    | _ => (false, cs)
  let (ids, cs2) := takeDigits sign.2
  if ids = [] then none
  else if 1 < ids.length ∧ ids.head? = some '0' then none
  else
    let fracRes : Option (List Char × List Char) :=
      match cs2 with
      | '.' :: r =>
        let (fds, cs3) := takeDigits r
        if fds = [] then none else some (fds, cs3)
      | _ => some ([], cs2)
    match fracRes with
    | none => none
    | some (fds, cs3) =>
      let expRes : Option (Int × List Char) :=
        match cs3 with
        | e :: r =>
          if e = 'e' ∨ e = 'E' then
            let se : Int × List Char :=
              match r with
              | '+' :: r3 => (1, r3)
              | '-' :: r3 => (-1, r3)
              | _ => (1, r)
            let (eds, r4) := takeDigits se.2
            if eds = [] then none else some (se.1 * (digitsToNat eds : Int), r4)
          else some (0, cs3)
        | [] => some (0, cs3)
      match expRes with
      | none => none
      | some (ex, cs4) =>
        let mantNat : Nat := digitsToNat (ids ++ fds)
        let mant : Int := if sign.1 then -(mantNat : Int) else (mantNat : Int)
        some (canonNum (ids.length + fds.length) mant (ex - fds.length), cs4)

/-- Insert or overwrite a field of a JSON object under construction; on a
duplicate key `JSON.parse` keeps the original position and the last value. -/
def setField (fields : List (String × Json)) (k : String) (v : Json) : List (String × Json) :=
  match fields with
  | [] => [(k, v)]
  | (k0, v0) :: rest => if k0 = k then (k0, v) :: rest else (k0, v0) :: setField rest k v

/-- Check for an exact literal such as `null` at the head of the input. -/
def stripLit (lit : List Char) (cs : List Char) : Option (List Char) :=
  if lit.isPrefixOf cs then some (cs.drop lit.length) else none

mutual

/-- Parse one JSON value (leading whitespace allowed). -/
def parseValue : Nat → List Char → Option (Json × List Char)
  | 0, _ => none
  | f + 1, cs =>
    match skipWs cs with
    | [] => none
    | c :: rest =>
      if c = 'n' then (stripLit ['u', 'l', 'l'] rest).map fun r => (Json.null, r)
      else if c = 't' then (stripLit ['r', 'u', 'e'] rest).map fun r => (Json.bool true, r)
      else if c = 'f' then (stripLit ['a', 'l', 's', 'e'] rest).map fun r => (Json.bool false, r)
      else if c = '\"' then
        (parseStringAux (rest.length + 1) rest).map fun r => (Json.str ⟨r.1⟩, r.2)
      else if c = '\x7b' then
        match skipWs rest with
        | '\x7d' :: rest2 => some (Json.obj [], rest2)
        | rest2 => parseMembers f rest2 []
      else if c = '[' then
        match skipWs rest with
        | ']' :: rest2 => some (Json.arr [], rest2)
        | rest2 => parseElements f rest2 []
      else parseNumber (c :: rest)

/-- Parse the members of a non-empty JSON object, accumulating parsed fields. -/
def parseMembers : Nat → List Char → List (String × Json) → Option (Json × List Char)
  | 0, _, _ => none
  | f + 1, cs, acc =>
    match cs with
    | '\"' :: rest =>
      match parseStringAux (rest.length + 1) rest with
      | none => none
      | some (keyChars, rest2) =>
        match skipWs rest2 with
        | ':' :: rest3 =>
          match parseValue f rest3 with
          | none => none
          | some (v, rest4) =>
            let acc2 := setField acc ⟨keyChars⟩ v
            match skipWs rest4 with
            | ',' :: rest5 => parseMembers f (skipWs rest5) acc2
            | '\x7d' :: rest5 => some (Json.obj acc2, rest5)
            | _ => none
        | _ => none
    | _ => none

/-- Parse the elements of a non-empty JSON array, accumulating parsed values. -/
def parseElements : Nat → List Char → List Json → Option (Json × List Char)
  | 0, _, _ => none
  | f + 1, cs, acc =>
    match parseValue f cs with
    | none => none
    | some (v, rest) =>
      match skipWs rest with
      | ',' :: rest2 => parseElements f rest2 (acc ++ [v])
      | ']' :: rest2 => some (Json.arr (acc ++ [v]), rest2)
      | _ => none

end

/-- Model of `JSON.parse`: `none` when the underlying call would throw a
syntax error. -/
def jsonParse (s : String) : Option Json :=
  match parseValue (s.length + 1) s.data with
  | none => none
  | some (j, rest) => if skipWs rest = [] then some j else none

/-! Model of `Object.keys` enumeration order and of `formatUserMapping`
(the action entry point), which parses the user-mapping input and drops
entries with falsy values. -/

/-- Whether a property key is a canonical array index (enumerated first, in
ascending numeric order, by `Object.keys`). -/
def isArrayIndex (s : String) : Bool :=
  s.data ≠ [] ∧ s.data.all Char.isDigit ∧ (s = "0" ∨ s.data.head? ≠ some '0') ∧
    digitsToNat s.data < 4294967295

/-- Insert a key into a list of array-index keys sorted by numeric value. -/
def insertIdxKey (k : String) : List String → List String
  | [] => [k]
  | x :: xs =>
    if digitsToNat k.data ≤ digitsToNat x.data then k :: x :: xs else x :: insertIdxKey k xs

/-- Insertion sort of array-index keys by numeric value. -/
def sortIdxKeys : List String → List String
  | [] => []
  | x :: xs => insertIdxKey x (sortIdxKeys xs)

/-- Model of `Object.keys` on an object: canonical array indices in ascending
numeric order first, then the remaining keys in insertion order. -/
def jsObjectKeys (fields : List (String × Json)) : List String :=
  sortIdxKeys ((fields.map Prod.fst).filter fun k => isArrayIndex k) ++
    (fields.map Prod.fst).filter fun k => !isArrayIndex k

/-- Property access `data[k]` on an object. -/
def objGet (fields : List (String × Json)) (k : String) : Option Json :=
  (fields.find? fun kv => kv.1 = k).map Prod.snd

/-- The own enumerable entries of a parsed JSON value, in `Object.keys` order;
`none` when `Object.keys(data)` would throw (namely on `null`).  On a string
or an array the keys are the element indices; numbers and booleans have no
own keys. -/
def ownEntries : Json → Option (List (String × Json))
  | Json.null => none
  | Json.obj fields =>
    some ((jsObjectKeys fields).filterMap fun k => (objGet fields k).map fun v => (k, v))
  | Json.str s => some (s.data.enum.map fun p => (toString p.1, Json.str ⟨[p.2]⟩))
  | Json.arr elems => some (elems.enum.map fun p => (toString p.1, p.2))
  | _ => some []

/-- Error message thrown by `formatUserMapping`. -/
def userMappingErrMsg : String := "Input \"user-mapping\" must be a json string."

/-- Model of `formatUserMapping`: `JSON.parse` the input inside a try block
and keep exactly the entries with truthy values; any exception inside the
try block (a parse error, or `Object.keys` on `null`) becomes the fixed
configuration error. -/
def formatUserMapping (s : String) : Except String (List (String × Json)) :=
  match jsonParse s with
  | none => Except.error userMappingErrMsg
  | some j =>
    match ownEntries j with
    | none => Except.error userMappingErrMsg
    | some entries => Except.ok (entries.filter fun kv => jsTruthyJson kv.2)

/-! Model of `stringify` from `src/utils.ts`, that is
`JSON.stringify(value, null, 2)`. -/

/-- Hexadecimal digit character. -/
def hexDigit (n : Nat) : Char :=
  if n < 10 then Char.ofNat (48 + n) else Char.ofNat (87 + n)

/-- Escape one character of a JSON string for serialization. -/
def escapeJsonChar (c : Char) : List Char :=
  if c = '\"' then ['\\', '\"']
  else if c = '\\' then ['\\', '\\']
  else if c = '\n' then ['\\', 'n']
  else if c = '\r' then ['\\', 'r']
  else if c = '\t' then ['\\', 't']
  else if c = Char.ofNat 8 then ['\\', 'b']
  else if c = Char.ofNat 12 then ['\\', 'f']
  else if c.toNat < 32 then ['\\', 'u', '0', '0', hexDigit (c.toNat / 16), hexDigit (c.toNat % 16)]
  else [c]

/-- Serialize a string with surrounding quotes, as `JSON.stringify` does. -/
def quoteJsonString (s : String) : String :=
  ⟨'\"' :: (s.data.map escapeJsonChar).flatten ++ ['\"']⟩

/-- Render the exact decimal `m * 10 ^ e` the way JavaScript prints the
corresponding number (plain decimal notation). -/
def numToString (m : Int) (e : Int) : String :=
  if m = 0 then "0"
  else
    let ds := Nat.toDigits 10 m.natAbs
    let zs := (ds.reverse.takeWhile fun c => c = '0').length
    let ds2 := ds.take (ds.length - zs)
    let e2 : Int := e + zs
    let body : List Char :=
      if 0 ≤ e2 then ds2 ++ List.replicate e2.toNat '0'
      else
        let k := (-e2).toNat
        if k < ds2.length then
          ds2.take (ds2.length - k) ++ '.' :: ds2.drop (ds2.length - k)
        else
          '0' :: '.' :: List.replicate (k - ds2.length) '0' ++ ds2
    ⟨if m < 0 then '-' :: body else body⟩

/-- Indentation of `n` spaces. -/
def spacesN (n : Nat) : String := ⟨List.replicate n ' '⟩

/-- Fuel-based serializer implementing `JSON.stringify(value, null, 2)`; the
fuel only decreases when descending one nesting level, so `sizeOf` of the
value is always sufficient. -/
def serializeFuel : Nat → Nat → Json → String
  | 0, _, _ => ""
  | f + 1, ind, j =>
    match j with
    | Json.null => "null"
    | Json.bool true => "true"
    | Json.bool false => "false"
    | Json.num m e => numToString m e
    | Json.str s => quoteJsonString s
    | Json.arr [] => "[]"
    | Json.arr (x :: xs) =>
      let items := (x :: xs).map fun el => spacesN (ind + 2) ++ serializeFuel f (ind + 2) el
      "[\n" ++ String.intercalate ",\n" items ++ "\n" ++ spacesN ind ++ "]"
    | Json.obj [] => "\x7b\x7d"
    | Json.obj (kv :: kvs) =>
      let items := (kv :: kvs).map fun kv =>
        spacesN (ind + 2) ++ quoteJsonString kv.1 ++ ": " ++ serializeFuel f (ind + 2) kv.2
      "\x7b\n" ++ String.intercalate ",\n" items ++ "\n" ++ spacesN ind ++ "\x7d"

mutual

/-- Size of a JSON value, an upper bound on its nesting depth. -/
def jsonSize : Json → Nat
  | Json.null => 1
  | Json.bool _ => 1
  | Json.num _ _ => 1
  | Json.str _ => 1
  | Json.arr l => 1 + jsonSizeList l
  | Json.obj l => 1 + jsonSizeFields l

/-- Total size of a list of JSON values. -/
def jsonSizeList : List Json → Nat
  | [] => 0
  | x :: xs => jsonSize x + jsonSizeList xs

/-- Total size of a list of JSON object fields. -/
def jsonSizeFields : List (String × Json) → Nat
  | [] => 0
  | kv :: xs => jsonSize kv.2 + jsonSizeFields xs

end

/-- Model of `stringify` from `src/utils.ts`: `JSON.stringify(value, null, 2)`. -/
def stringify (j : Json) : String := serializeFuel (jsonSize j) 0 j

/-! Model of `normalizeError` from `src/utils.ts`.  The argument has type
`any`; the values that can reach it are embedded as `JSValue`: a string, an
`Error` instance carrying its message, any other JSON-serializable value, or
the undefined value.  The result is `Option String` because
`JSON.stringify(undefined, null, 2)` evaluates to `undefined`, not to a
string. -/

/-- A JavaScript value passed to `normalizeError`. -/
inductive JSValue where
  | vstr (s : String)
  | verror (message : String)
  | vjson (j : Json)
  | vundefined
deriving Repr

/-- Model of `normalizeError`: identity on strings (also on a string reached
through the dynamic `any` type), the message of an `Error`, and
`stringify` of everything else; `undefined` when `JSON.stringify` yields
`undefined`. -/
def normalizeError : JSValue → Option String
  | JSValue.vstr s => some s
  | JSValue.verror m => some m
  | JSValue.vjson (Json.str s) => some s
  | JSValue.vjson j => some (stringify j)
  | JSValue.vundefined => none

/-- Re-inject the result of `normalizeError` as a JavaScript value, to state
idempotence. -/
def reinject : Option String → JSValue
  | some s => JSValue.vstr s
  | none => JSValue.vundefined

/-! Embedding of `src/types.ts` and the payload shapes consumed by
`src/slack.ts`.  The action reads one untyped webhook payload and casts it
per event kind; the embedding carries all fields the code can touch in one
record, exactly as the dynamic payload object does. -/

/-- Git repository information (`TRepository`); only `html_url` is read. -/
structure TRepository where
  html_url : String
deriving Repr, DecidableEq

/-- A GitHub user (`TUser`); `login` and `avatar_url` are the fields read. -/
structure TUser where
  login : String
  avatar_url : String
deriving Repr, DecidableEq

/-- One end of a pull request: branch name and its repository, which the
payload may leave null. -/
structure BranchRef where
  ref : String
  repo : Option TRepository
deriving Repr, DecidableEq

/-- A requested reviewer is either a user (has a `login`) or a team. -/
inductive Reviewer where
  | user (u : TUser)
  | team (name : String)
deriving Repr, DecidableEq

/-- A label; only its name is read. -/
structure Label where
  name : String
deriving Repr, DecidableEq

/-- The `pull_request` object of a pull_request or pull_request_review
payload. -/
structure PullRequest where
  number : Nat
  title : String
  head : BranchRef
  base : BranchRef
  html_url : String
  changed_files : Nat
  user : TUser
  merged : Bool
  labels : List Label
  requested_reviewers : List Reviewer
deriving Repr, DecidableEq

/-- The `review` object of a pull_request_review payload.  `src/types.ts`
narrows `state` of a submitted review to
commented / approved / changes_requested; the embedding keeps it a string as
at runtime. -/
structure Review where
  html_url : String
  state : String
deriving Repr, DecidableEq

/-- The `issue` object of an issue_comment payload; `pull_request` records
whether the issue carries an attached pull request (the truthiness the code
tests). -/
structure Issue where
  number : Nat
  title : String
  labels : List Label
  pull_request : Bool
deriving Repr, DecidableEq

/-- The `comment` object of an issue_comment payload. -/
structure Comment where
  html_url : String
deriving Repr, DecidableEq

/-- The webhook payload, with every field any branch of the code can read;
`changes_body` records whether `changes?.body` is present (truthy) on a
review-edited payload. -/
structure Payload where
  action : Option String
  sender : Option TUser
  number : Nat
  pull_request : PullRequest
  review : Review
  issue : Issue
  comment : Comment
  changes_body : Bool
deriving Repr, DecidableEq

/-- The relevant part of `github.context`: the event name and the payload. -/
structure GithubContext where
  eventName : String
  payload : Payload
deriving Repr, DecidableEq

/-- The parsed action inputs (`TInput`).  `userMapping` is the flat
username-to-member-id object, embedded as an association list with unique
keys. -/
structure TInput where
  githubToken : String
  botToken : String
  channelId : String
  webhookUrl : String
  userMapping : List (String × String)
deriving Repr, DecidableEq

/-- The pull-request detail returned by the hosting API
(`octokit.rest.pulls.get`); `user` and `requested_reviewers` are optional in
that response shape, as the code acknowledges by using `?.` and an existence
check. -/
structure PullRequestDetail where
  html_url : String
  changed_files : Nat
  head : BranchRef
  base : BranchRef
  user : Option TUser
  requested_reviewers : Option (List Reviewer)
deriving Repr, DecidableEq

/-! Embedding of the pure helpers of `src/slack.ts`. -/

/-- Property lookup on the user-mapping object. -/
def jsLookup (m : List (String × String)) (k : String) : Option String :=
  (m.find? fun kv => kv.1 = k).map Prod.snd

/-- Model of `generateBranchURL`: the template renders a null repository
(through `repository?.html_url`) as the text `undefined`. -/
def generateBranchURL (repository : Option TRepository) (name : String) : String :=
  (match repository with
   | some r => r.html_url
   | none => "undefined") ++ "/tree/" ++ name

/-- Model of `generateUser`: a truthy mapped member id renders as a mention
followed by the username in parentheses, otherwise the plain username. -/
def generateUser (githubUser : String) (mapping : List (String × String)) : String :=
  match jsLookup mapping githubUser with
  | some slackMemberID =>
    if slackMemberID ≠ "" then "<@" ++ slackMemberID ++ "> (" ++ githubUser ++ ")"
    else githubUser
  | none => githubUser

/-- Model of `isUserReviewer`: a reviewer whose `login` is defined. -/
def isUserReviewer : Reviewer → Bool
  | Reviewer.user _ => true
  | Reviewer.team _ => false

/-- Model of `getRequestedReviewers`: map user reviewers through
`generateUser` and `.filter(Boolean)` the result, which also drops an empty
string. -/
def getRequestedReviewers (requestedReviewers : List Reviewer)
    (mapping : List (String × String)) : List String :=
  (requestedReviewers.filterMap fun reviewer =>
    match reviewer with
    | Reviewer.user u => some (generateUser u.login mapping)
    | Reviewer.team _ => none).filter fun s => s ≠ ""

/-- Model of `getPullRequestDetail`: null without a token, otherwise the
response of the hosting API, supplied as the oracle `api`. -/
def getPullRequestDetail (token : String) (api : PullRequestDetail) : Option PullRequestDetail :=
  if token = "" then none else some api

/-- Replace the first occurrence of a pattern, as the JavaScript
`String.prototype.replace` with a string pattern does.  Helper splitting at
the first occurrence. -/
def splitFirst (pat : List Char) : List Char → Option (List Char × List Char)
  | [] => if pat.isPrefixOf ([] : List Char) then some ([], []) else none
  | c :: cs =>
    if pat.isPrefixOf (c :: cs) then some ([], (c :: cs).drop pat.length)
    else (splitFirst pat cs).map fun r => (c :: r.1, r.2)

/-- JavaScript `s.replace(pat, rep)` with a string pattern: at most one
replacement. -/
def jsReplaceOnce (s pat rep : String) : String :=
  match splitFirst pat.data s.data with
  | some (pre, post) => ⟨pre ++ rep.data ++ post⟩
  | none => s

/-! Embedding of `buildMessageContent`.  The body first fills the mutable
locals (eventStatus, title, ..., labels, requestedReviewers) in a switch over
the event name, then assembles the block list and the attachment; the
embedding mirrors this as `computeVars` followed by the assembly in
`buildMessageContent`. -/

/-- The local variables of `buildMessageContent` after the switch. -/
structure BuildVars where
  eventStatus : Option String
  title : Option String
  pullRequestNumber : Option Nat
  head : Option (String × String)
  base : Option (String × String)
  changedFiles : Option (String × Nat)
  createdBy : Option String
  color : Option String
  message : Option String
  messageURL : Option String
  labels : List String
  requestedReviewers : List String
deriving Repr, DecidableEq

/-- The initial values of the locals (everything undefined, lists empty). -/
def initVars : BuildVars :=
  { eventStatus := none, title := none, pullRequestNumber := none, head := none,
    base := none, changedFiles := none, createdBy := none, color := none,
    message := none, messageURL := none, labels := [], requestedReviewers := [] }

/-- The `case 'pull_request'` branch of the switch. -/
def prVars (input : TInput) (ctx : GithubContext) : BuildVars :=
  let p := ctx.payload.pull_request
  let common : BuildVars :=
    { initVars with
      pullRequestNumber := some ctx.payload.number
      title := some p.title
      head := some (generateBranchURL p.head.repo p.head.ref, p.head.ref)
      base := some (generateBranchURL p.base.repo p.base.ref, p.base.ref)
      changedFiles := some (p.html_url ++ "/files", p.changed_files)
      createdBy := some p.user.login
      messageURL := some p.html_url
      labels := p.labels.map Label.name
      requestedReviewers := getRequestedReviewers p.requested_reviewers input.userMapping
      eventStatus := ctx.payload.action }
  if ctx.payload.action = some "opened" then
    { common with color := some "#2DA44E", message := some "opened this pull request." }
  else if ctx.payload.action = some "reopened" then
    { common with color := some "#0D4C8C", message := some "reopened this pull request." }
  else if ctx.payload.action = some "closed" then
    if p.merged then
      { common with eventStatus := some "merged", color := some "#8250DF",
                    message := some "merged this pull request." }
    else
      { common with color := some "#CF222E", message := some "closed this pull request." }
  else common

/-- The `case 'pull_request_review'` branch of the switch. -/
def reviewVars (input : TInput) (ctx : GithubContext) (api : PullRequestDetail) : BuildVars :=
  let p := ctx.payload.pull_request
  let detail := getPullRequestDetail input.githubToken api
  let common : BuildVars :=
    { initVars with
      pullRequestNumber := some p.number
      title := some p.title
      head := some (generateBranchURL p.head.repo p.head.ref, p.head.ref)
      base := some (generateBranchURL p.base.repo p.base.ref, p.base.ref)
      createdBy := some p.user.login
      messageURL := some ctx.payload.review.html_url
      labels := p.labels.map Label.name
      requestedReviewers := getRequestedReviewers p.requested_reviewers input.userMapping
      changedFiles := detail.map fun d => (d.html_url ++ "/files", d.changed_files)
      eventStatus := some "review: " }
  if ctx.payload.action = some "submitted" then
    let state := ctx.payload.review.state
    let c2 := { common with eventStatus := some ("review: " ++ jsReplaceOnce state "_" " ") }
    if state = "commented" then
      { c2 with color := some "#BBDFFF", message := some "reviewed this pull request." }
    else if state = "approved" then
      { c2 with color := some "#2DA44E", message := some "approved this pull request." }
    else if state = "changes_requested" then
      { c2 with color := some "#CF222E",
                message := some "requested changes on this pull request." }
    else c2
  else if ctx.payload.action = some "edited" then
    { common with eventStatus := some "review: updated a comment", color := some "#BBDFFF",
                  message := some "updated a review comment on this pull request." }
  else if ctx.payload.action = some "dismissed" then
    { common with eventStatus := some "review: dismissed", color := some "#CF222E",
                  message := some "dismissed the review changes on this pull request." }
  else common

/-- The `case 'issue_comment'` branch of the switch. -/
def commentVars (input : TInput) (ctx : GithubContext) (api : PullRequestDetail) : BuildVars :=
  let issue := ctx.payload.issue
  let detail := getPullRequestDetail input.githubToken api
  let common : BuildVars :=
    { initVars with
      pullRequestNumber := some issue.number
      title := some issue.title
      messageURL := some ctx.payload.comment.html_url
      labels := issue.labels.map Label.name
      head := detail.map fun d => (generateBranchURL d.head.repo d.head.ref, d.head.ref)
      base := detail.map fun d => (generateBranchURL d.base.repo d.base.ref, d.base.ref)
      createdBy := detail.bind fun d => d.user.map TUser.login
      changedFiles := detail.map fun d => (d.html_url ++ "/files", d.changed_files)
      requestedReviewers :=
        match detail with
        | some d =>
          match d.requested_reviewers with
          | some rs => getRequestedReviewers rs input.userMapping
          | none => []
        | none => [] }
  if ctx.payload.action = some "created" then
    { common with eventStatus := some "commented", color := some "#BBDFFF",
                  message := some "commented on this pull request." }
  else if ctx.payload.action = some "edited" then
    { common with eventStatus := some "updated a comment",
                  message := some "updated a comment on this pull request.",
                  color := some "#BBDFFF" }
  else common

/-- The `default` branch of the switch: log, gray accent, nothing else. -/
def defaultVars : BuildVars := { initVars with color := some "#DDDDDD" }

/-- The switch of `buildMessageContent` over the event name. -/
def computeVars (input : TInput) (ctx : GithubContext) (api : PullRequestDetail) : BuildVars :=
  if ctx.eventName = "pull_request" then prVars input ctx
  else if ctx.eventName = "pull_request_review" then reviewVars input ctx api
  else if ctx.eventName = "issue_comment" then commentVars input ctx api
  else defaultVars

/-- A Slack block of the assembled message. -/
inductive Block where
  | header (text : String)
  | section (text : String)
  | divider
deriving Repr, DecidableEq

/-- Rendering of a possibly-undefined string inside a template literal. -/
def jsTemplate (o : Option String) : String :=
  match o with
  | some s => s
  | none => "undefined"

/-- Rendering of a possibly-undefined number inside a template literal. -/
def jsTemplateNat (o : Option Nat) : String :=
  match o with
  | some n => toString n
  | none => "undefined"

/-- The single styled attachment of the message. -/
structure Attachment where
  color : Option String
  senderAvatar : Option String
  senderText : String
  linkText : String
deriving Repr, DecidableEq

/-- The assembled message content: the block list and the attachment. -/
structure MessageContent where
  blocks : List Block
  attachment : Attachment
deriving Repr, DecidableEq

/-- Model of `buildMessageContent`: run the switch, then push the header and
title blocks, each optional section when its datum is present (for the
author, truthy), the divider, and build the attachment.  A sender that the
payload lacks reaches the template as `undefined`. -/
def buildMessageContent (input : TInput) (ctx : GithubContext) (api : PullRequestDetail) :
    MessageContent :=
  let v := computeVars input ctx api
  let blocks0 : List Block :=
    [Block.header ("PULL REQUEST #" ++ jsTemplateNat v.pullRequestNumber ++ " - " ++
       (match v.eventStatus with
        | some s => s.toUpper
        | none => "undefined")),
     Block.section (":small_blue_diamond: *Title:  " ++ jsTemplate v.title ++ "*")]
  let blocks1 := blocks0 ++
    (match v.head with
     | some hb => [Block.section (":small_blue_diamond: *Head branch:*  <" ++ hb.1 ++ "|" ++ hb.2 ++ ">")]
     | none => [])
  let blocks2 := blocks1 ++
    (match v.base with
     | some bb => [Block.section (":small_blue_diamond: *Base branch:*  <" ++ bb.1 ++ "|" ++ bb.2 ++ ">")]
     | none => [])
  let blocks3 := blocks2 ++
    (match v.changedFiles with
     | some cf => [Block.section (":small_blue_diamond: *Files changed:*  <" ++ cf.1 ++ "|" ++ toString cf.2 ++ ">")]
     | none => [])
  let blocks4 := blocks3 ++
    (if 0 < v.labels.length then
       [Block.section (":label: *Labels:*  " ++
          String.intercalate " " (v.labels.map fun l => "`" ++ l ++ "`"))]
     else [])
  let blocks5 := blocks4 ++
    (if 0 < v.requestedReviewers.length then
       [Block.section (":technologist: *Requested Reviewers:*  " ++
          String.intercalate ", " v.requestedReviewers)]
     else [])
  let blocks6 := blocks5 ++
    (match v.createdBy with
     | some c =>
       if c ≠ "" then
         [Block.section (":technologist: *Created by:*  " ++ generateUser c input.userMapping)]
       else []
     | none => [])
  let blocks7 := blocks6 ++ [Block.divider]
  { blocks := blocks7
    attachment :=
      { color := v.color
        senderAvatar := ctx.payload.sender.map TUser.avatar_url
        senderText :=
          generateUser
            (match ctx.payload.sender with
             | some s => s.login
             | none => "undefined") input.userMapping ++ " " ++
          (match v.message with
           | some m => m
           | none => "do nothing")
        linkText := "<" ++ jsTemplate v.messageURL ++ "|View it on GitHub>" } }

/-! Embedding of the action entry point: `isValidEvent` and `run`. -/

/-- Model of `isValidEvent`: a falsy action rejects immediately; then the
event name selects the accepted action set, with the extra body-change check
for an edited review and the attached-pull-request check for an issue
comment. -/
def isValidEvent (ctx : GithubContext) : Bool :=
  match ctx.payload.action with
  | none => false
  | some action =>
    if action = "" then false
    else if ctx.eventName = "pull_request" then
      ["opened", "reopened", "closed"].contains action
    else if ctx.eventName = "pull_request_review" then
      if !(["submitted", "edited", "dismissed"].contains action) then false
      else if action = "edited" ∧ !ctx.payload.changes_body then false
      else true
    else if ctx.eventName = "issue_comment" then
      if !(["created", "edited"].contains action) then false
      else ctx.payload.issue.pull_request
    else false

/-- The raw configuration strings read by `parseInput` (each empty when the
corresponding input is absent). -/
structure RawInputs where
  githubToken : String
  botToken : String
  channelId : String
  webhookUrl : String
  userMapping : String
deriving Repr, DecidableEq

/-- The user-mapping string actually parsed: `getInput(...) || ` a literal
empty object. -/
def effectiveMapping (raw : RawInputs) : String :=
  if raw.userMapping = "" then "\x7b\x7d" else raw.userMapping

/-- The relevant part of the `chat.postMessage` response. -/
structure PostResponse where
  ts : Option String
  metadata_scopes : Option (List String)
deriving Repr, DecidableEq

/-- An outbound Slack call the run performs, in order. -/
inductive Call where
  | postMessage
  | addReaction
  | webhookSend
deriving Repr, DecidableEq

/-- How the run ends. -/
inductive RunOutcome where
  | skipped
  | failed (message : String)
  | completed
deriving Repr, DecidableEq

/-- Error message for missing credentials. -/
def needTokenMsg : String :=
  "Need to provide at least one input \"slack-bot-token\" or \"slack-webhook-url\"."

/-- Error message for a bot token without a channel id. -/
def needChannelMsg : String :=
  "Input \"slack-channel-id\" is required to run this action. An empty one has been provided."

/-- Whether `response.metadata_scopes?.includes('reactions:write')` is
truthy. -/
def scopesHaveReactions (resp : PostResponse) : Bool :=
  match resp.metadata_scopes with
  | some scopes => scopes.contains "reactions:write"
  | none => false

/-- Model of the `run` entry point: skip invalid events, parse inputs
(whose user-mapping parse may throw), validate the credential combination
(the source tests `.length === 0`, embedded as equality with the empty
string), then deliver on the bot-token path, with the reaction call gated on
a truthy response timestamp and the reactions-write scope, or on the webhook
path.  The result is the outcome and the ordered list of delivery calls; the
post response is supplied as the oracle `resp`. -/
def run (ctx : GithubContext) (raw : RawInputs) (resp : PostResponse) :
    RunOutcome × List Call :=
  if !isValidEvent ctx then (RunOutcome.skipped, [])
  else
    match formatUserMapping (effectiveMapping raw) with
    | Except.error e => (RunOutcome.failed e, [])
    | Except.ok _ =>
      if raw.botToken = "" ∧ raw.webhookUrl = "" then
        (RunOutcome.failed needTokenMsg, [])
      else if raw.botToken ≠ "" then
        if raw.channelId = "" then
          (RunOutcome.failed needChannelMsg, [])
        else
          if jsTruthyStr resp.ts && scopesHaveReactions resp then
            (RunOutcome.completed, [Call.postMessage, Call.addReaction])
          else
            (RunOutcome.completed, [Call.postMessage])
      else if raw.webhookUrl ≠ "" then
        (RunOutcome.completed, [Call.webhookSend])
      else (RunOutcome.completed, [])

/-! Concrete fixtures used to witness the theorems below. -/

/-- A sample repository. -/
def sampleRepo : TRepository := ⟨"https://github.com/o/r"⟩

/-- A sample pull-request author. -/
def sampleAlice : TUser := ⟨"alice", "https://a/img"⟩

/-- A sample sender. -/
def sampleBob : TUser := ⟨"bob", "https://b/img"⟩

/-- A sample pull-request object. -/
def samplePR : PullRequest :=
  { number := 7, title := "Add feature X",
    head := ⟨"feature-x", some sampleRepo⟩, base := ⟨"main", some sampleRepo⟩,
    html_url := "https://github.com/o/r/pull/7", changed_files := 3,
    user := sampleAlice, merged := false, labels := [⟨"bug"⟩], requested_reviewers := [] }

/-- A sample payload with the given action. -/
def samplePayload (a : Option String) : Payload :=
  { action := a, sender := some sampleBob, number := 7, pull_request := samplePR,
    review := ⟨"https://github.com/o/r/pull/7/reviews/1", "changes_requested"⟩,
    issue := ⟨7, "Add feature X", [], true⟩,
    comment := ⟨"https://github.com/o/r/pull/7/comments/1"⟩, changes_body := false }

/-- A sample context: a pull_request opened event. -/
def sampleCtxOpened : GithubContext := ⟨"pull_request", samplePayload (some "opened")⟩

/-- A sample context: a review submitted with changes requested. -/
def sampleCtxReview : GithubContext := ⟨"pull_request_review", samplePayload (some "submitted")⟩

/-- A sample parsed input. -/
def sampleInput : TInput := ⟨"", "", "", "", [("alice", "U123")]⟩

/-- A sample hosting-API pull-request detail. -/
def sampleDetail : PullRequestDetail :=
  ⟨"https://github.com/o/r/pull/7", 3, ⟨"feature-x", some sampleRepo⟩,
   ⟨"main", some sampleRepo⟩, some sampleAlice, some []⟩

/-! Named forms of the individual blocks pushed by `buildMessageContent`,
used to state the assembly order. -/

/-- The header text of the assembled message. -/
def headerBlockText (v : BuildVars) : String :=
  "PULL REQUEST #" ++ jsTemplateNat v.pullRequestNumber ++ " - " ++
    (match v.eventStatus with
     | some s => s.toUpper
     | none => "undefined")

/-- The title section text of the assembled message. -/
def titleBlockText (v : BuildVars) : String :=
  ":small_blue_diamond: *Title:  " ++ jsTemplate v.title ++ "*"

/-- The head-branch section, pushed only when the head branch is known. -/
def headBlocks (v : BuildVars) : List Block :=
  match v.head with
  | some hb =>
    [Block.section (":small_blue_diamond: *Head branch:*  <" ++ hb.1 ++ "|" ++ hb.2 ++ ">")]
  | none => []

/-- The base-branch section, pushed only when the base branch is known. -/
def baseBlocks (v : BuildVars) : List Block :=
  match v.base with
  | some bb =>
    [Block.section (":small_blue_diamond: *Base branch:*  <" ++ bb.1 ++ "|" ++ bb.2 ++ ">")]
  | none => []

/-- The changed-files section, pushed only when the count is known. -/
def filesBlocks (v : BuildVars) : List Block :=
  match v.changedFiles with
  | some cf =>
    [Block.section
      (":small_blue_diamond: *Files changed:*  <" ++ cf.1 ++ "|" ++ toString cf.2 ++ ">")]
  | none => []

/-- The labels section, pushed only when the label list is non-empty. -/
def labelsBlocks (v : BuildVars) : List Block :=
  if 0 < v.labels.length then
    [Block.section (":label: *Labels:*  " ++
       String.intercalate " " (v.labels.map fun l => "`" ++ l ++ "`"))]
  else []

/-- The requested-reviewers section, pushed only when the list is
non-empty. -/
def reviewersBlocks (v : BuildVars) : List Block :=
  if 0 < v.requestedReviewers.length then
    [Block.section (":technologist: *Requested Reviewers:*  " ++
       String.intercalate ", " v.requestedReviewers)]
  else []

/-- The author section, pushed only when the author is known (truthy). -/
def authorBlocks (input : TInput) (v : BuildVars) : List Block :=
  match v.createdBy with
  | some c =>
    if c ≠ "" then
      [Block.section (":technologist: *Created by:*  " ++ generateUser c input.userMapping)]
    else []
  | none => []

/-- C7: generateUser is a pure total function: a username mapped to a truthy
member id M renders as a mention followed by the username in parentheses,
any other username renders as the plain username; in particular with mapping
mapping alice to U123, alice renders as the mention form and bob as plain. -/
theorem generateUser_total (githubUser M : String) (mapping : List (String × String)) :
    (jsLookup mapping githubUser = some M → M ≠ "" →
       generateUser githubUser mapping = "<@" ++ M ++ "> (" ++ githubUser ++ ")") ∧
    (jsLookup mapping githubUser = none → generateUser githubUser mapping = githubUser) ∧
    (jsLookup mapping githubUser = some "" → generateUser githubUser mapping = githubUser) ∧
    generateUser "alice" [("alice", "U123")] = "<@U123> (alice)" ∧
    generateUser "bob" [("alice", "U123")] = "bob" := by
  refine ⟨?_, ?_, ?_, rfl, rfl⟩
  · intro h hne
    simp [generateUser, h, hne]
  · intro h
    simp [generateUser, h]
  · intro h
    simp [generateUser, h]

/-- Witness for C7 at the concrete mapping of the claim. -/
theorem generateUser_total_witness :
    generateUser "alice" [("alice", "U123")] = "<@U123> (alice)" :=
  (generateUser_total "alice" "U123" [("alice", "U123")]).1 rfl (by decide)

/-- C10 counterexample: on the undefined value (a legal operand of the
dynamically typed normalizeError, and a value JavaScript code can throw)
the function returns undefined, not a string, because
JSON.stringify(undefined, null, 2) is undefined. -/
theorem normalizeError_undefined_counterexample :
    normalizeError JSValue.vundefined = none := rfl

/-- C10 (amended): normalizeError is idempotent on every value once its
result is re-injected as a value, and it returns a string on every string,
Error instance and JSON-serializable value: the string itself, the message
of the Error, and the pretty-printed JSON of everything else. -/
theorem normalizeError_idempotent :
    (∀ v, normalizeError (reinject (normalizeError v)) = normalizeError v) ∧
    (∀ s, normalizeError (JSValue.vstr s) = some s) ∧
    (∀ m, normalizeError (JSValue.verror m) = some m) ∧
    (∀ j, normalizeError (JSValue.vjson j) = some (stringify j) ∨
          ∃ s, j = Json.str s ∧ normalizeError (JSValue.vjson j) = some s) := by
  refine ⟨?_, fun s => rfl, fun m => rfl, ?_⟩
  · intro v
    cases v with
    | vstr s => rfl
    | verror m => rfl
    | vjson j => cases j <;> rfl
    | vundefined => rfl
  · intro j
    cases j with
    | str s => exact Or.inr ⟨s, rfl, rfl⟩
    | null => exact Or.inl rfl
    | bool b => exact Or.inl rfl
    | num m e => exact Or.inl rfl
    | arr l => exact Or.inl rfl
    | obj l => exact Or.inl rfl

/-- C2: the classifier accepts exactly pull_request with action opened,
reopened or closed; pull_request_review with action submitted or dismissed,
or edited when the changes diff includes a body change; and issue_comment
with action created or edited when the issue carries an attached pull
request; any other event name, or an absent action, is rejected. -/
theorem isValidEvent_characterization (ctx : GithubContext) :
    isValidEvent ctx = true ↔
      ∃ a, ctx.payload.action = some a ∧
        ((ctx.eventName = "pull_request" ∧ (a = "opened" ∨ a = "reopened" ∨ a = "closed")) ∨
         (ctx.eventName = "pull_request_review" ∧
           (a = "submitted" ∨ a = "dismissed" ∨
            (a = "edited" ∧ ctx.payload.changes_body = true))) ∨
         (ctx.eventName = "issue_comment" ∧ (a = "created" ∨ a = "edited") ∧
           ctx.payload.issue.pull_request = true)) := by
  cases h : ctx.payload.action with
  | none => simp [isValidEvent, h]
  | some a =>
    simp only [isValidEvent, h]
    by_cases he : a = ""
    · subst he
      simp
    · by_cases h1 : ctx.eventName = "pull_request"
      · simp [he, h1, List.contains]
      · by_cases h2 : ctx.eventName = "pull_request_review"
        · by_cases hed : a = "edited"
          · cases hcb : ctx.payload.changes_body <;>
              simp [he, h1, h2, hed, hcb, List.contains]
          · simp [he, h1, h2, hed, List.contains]
        · by_cases h3 : ctx.eventName = "issue_comment"
          · cases hip : ctx.payload.issue.pull_request <;>
              simp [he, h1, h2, h3, hip, List.contains]
          · simp [he, h1, h2, h3]

/-- C1: for every accepted pull_request event the builder produces the
status, accent color and verb of the table: opened gives green and the
opened verb, reopened gives blue, closed with merged gives status merged,
purple and the merged verb, closed without merged gives red and the closed
verb; the attachment color of the assembled message is exactly that color. -/
theorem buildMessageContent_pull_request_table (input : TInput) (ctx : GithubContext)
    (api : PullRequestDetail) (hev : ctx.eventName = "pull_request")
    (_hv : isValidEvent ctx = true) :
    (ctx.payload.action = some "opened" →
       (computeVars input ctx api).eventStatus = some "opened" ∧
       (computeVars input ctx api).color = some "#2DA44E" ∧
       (computeVars input ctx api).message = some "opened this pull request.") ∧
    (ctx.payload.action = some "reopened" →
       (computeVars input ctx api).eventStatus = some "reopened" ∧
       (computeVars input ctx api).color = some "#0D4C8C" ∧
       (computeVars input ctx api).message = some "reopened this pull request.") ∧
    (ctx.payload.action = some "closed" → ctx.payload.pull_request.merged = true →
       (computeVars input ctx api).eventStatus = some "merged" ∧
       (computeVars input ctx api).color = some "#8250DF" ∧
       (computeVars input ctx api).message = some "merged this pull request.") ∧
    (ctx.payload.action = some "closed" → ctx.payload.pull_request.merged = false →
       (computeVars input ctx api).eventStatus = some "closed" ∧
       (computeVars input ctx api).color = some "#CF222E" ∧
       (computeVars input ctx api).message = some "closed this pull request.") ∧
    (buildMessageContent input ctx api).attachment.color = (computeVars input ctx api).color := by
  refine ⟨?_, ?_, ?_, ?_, rfl⟩
  · intro ha
    simp [computeVars, hev, prVars, ha]
  · intro ha
    simp [computeVars, hev, prVars, ha]
  · intro ha hm
    simp [computeVars, hev, prVars, ha, hm]
  · intro ha hm
    simp [computeVars, hev, prVars, ha, hm]

/-- Witness for C1 at a concrete accepted opened event. -/
theorem buildMessageContent_pull_request_table_witness :
    (computeVars sampleInput sampleCtxOpened sampleDetail).eventStatus = some "opened" ∧
    (computeVars sampleInput sampleCtxOpened sampleDetail).color = some "#2DA44E" ∧
    (computeVars sampleInput sampleCtxOpened sampleDetail).message =
      some "opened this pull request." :=
  (buildMessageContent_pull_request_table sampleInput sampleCtxOpened sampleDetail rfl
    (by decide)).1 rfl

/-- C3: for every accepted submitted review the status label is the text
review-colon-space followed by the review state with its underscore replaced
by a space, and the color and verb follow the state: commented gives
light blue and the reviewed verb, approved gives green and the approved
verb, changes_requested gives red, the requested-changes verb and status
text review: changes requested. -/
theorem buildMessageContent_review_submitted_table (input : TInput) (ctx : GithubContext)
    (api : PullRequestDetail) (hev : ctx.eventName = "pull_request_review")
    (_hv : isValidEvent ctx = true) (ha : ctx.payload.action = some "submitted") :
    (computeVars input ctx api).eventStatus =
        some ("review: " ++ jsReplaceOnce ctx.payload.review.state "_" " ") ∧
    (ctx.payload.review.state = "commented" →
       (computeVars input ctx api).color = some "#BBDFFF" ∧
       (computeVars input ctx api).message = some "reviewed this pull request.") ∧
    (ctx.payload.review.state = "approved" →
       (computeVars input ctx api).color = some "#2DA44E" ∧
       (computeVars input ctx api).message = some "approved this pull request.") ∧
    (ctx.payload.review.state = "changes_requested" →
       (computeVars input ctx api).color = some "#CF222E" ∧
       (computeVars input ctx api).message = some "requested changes on this pull request." ∧
       (computeVars input ctx api).eventStatus = some "review: changes requested") := by
  by_cases h1 : ctx.payload.review.state = "commented"
  · simp [computeVars, hev, reviewVars, ha, h1]
  · by_cases h2 : ctx.payload.review.state = "approved"
    · simp [computeVars, hev, reviewVars, ha, h1, h2]
    · by_cases h3 : ctx.payload.review.state = "changes_requested"
      · simp [computeVars, hev, reviewVars, ha, h1, h2, h3]
        decide
      · simp [computeVars, hev, reviewVars, ha, h1, h2, h3]

/-- Witness for C3 at a concrete accepted changes-requested review. -/
theorem buildMessageContent_review_submitted_table_witness :
    (computeVars sampleInput sampleCtxReview sampleDetail).color = some "#CF222E" ∧
    (computeVars sampleInput sampleCtxReview sampleDetail).message =
      some "requested changes on this pull request." ∧
    (computeVars sampleInput sampleCtxReview sampleDetail).eventStatus =
      some "review: changes requested" :=
  (buildMessageContent_review_submitted_table sampleInput sampleCtxReview sampleDetail rfl
    (by decide) rfl).2.2.2 rfl

/-- C4: for every event reaching the builder, the block sequence is exactly
header, title, then the head-branch, base-branch, changed-files, labels,
requested-reviewers and author sections, then the divider; each optional
section is one section block when its datum is present (for labels and
reviewers, non-empty; for the author, truthy) and contributes no block at
all when it is absent. -/
theorem buildMessageContent_block_order (input : TInput) (ctx : GithubContext)
    (api : PullRequestDetail) :
    ((buildMessageContent input ctx api).blocks =
        Block.header (headerBlockText (computeVars input ctx api)) ::
        Block.section (titleBlockText (computeVars input ctx api)) ::
        (headBlocks (computeVars input ctx api) ++ baseBlocks (computeVars input ctx api) ++
         filesBlocks (computeVars input ctx api) ++ labelsBlocks (computeVars input ctx api) ++
         reviewersBlocks (computeVars input ctx api) ++
         authorBlocks input (computeVars input ctx api) ++ [Block.divider])) ∧
    (∀ w : BuildVars, w.head = none → headBlocks w = []) ∧
    (∀ w : BuildVars, ∀ x, w.head = some x → ∃ t, headBlocks w = [Block.section t]) ∧
    (∀ w : BuildVars, w.base = none → baseBlocks w = []) ∧
    (∀ w : BuildVars, ∀ x, w.base = some x → ∃ t, baseBlocks w = [Block.section t]) ∧
    (∀ w : BuildVars, w.changedFiles = none → filesBlocks w = []) ∧
    (∀ w : BuildVars, ∀ x, w.changedFiles = some x → ∃ t, filesBlocks w = [Block.section t]) ∧
    (∀ w : BuildVars, w.labels = [] → labelsBlocks w = []) ∧
    (∀ w : BuildVars, w.labels ≠ [] → ∃ t, labelsBlocks w = [Block.section t]) ∧
    (∀ w : BuildVars, w.requestedReviewers = [] → reviewersBlocks w = []) ∧
    (∀ w : BuildVars, w.requestedReviewers ≠ [] → ∃ t, reviewersBlocks w = [Block.section t]) ∧
    (∀ w : BuildVars, jsTruthyStr w.createdBy = false → authorBlocks input w = []) ∧
    (∀ w : BuildVars, jsTruthyStr w.createdBy = true →
       ∃ t, authorBlocks input w = [Block.section t]) := by
  refine ⟨?_, ?_, ?_, ?_, ?_, ?_, ?_, ?_, ?_, ?_, ?_, ?_, ?_⟩
  · simp [buildMessageContent, headerBlockText, titleBlockText, headBlocks, baseBlocks,
      filesBlocks, labelsBlocks, reviewersBlocks, authorBlocks, List.append_assoc]
  · intro w h; simp [headBlocks, h]
  · intro w x h; simp [headBlocks, h]
  · intro w h; simp [baseBlocks, h]
  · intro w x h; simp [baseBlocks, h]
  · intro w h; simp [filesBlocks, h]
  · intro w x h; simp [filesBlocks, h]
  · intro w h; simp [labelsBlocks, h]
  · intro w h
    simp [labelsBlocks, List.length_pos.mpr h]
  · intro w h; simp [reviewersBlocks, h]
  · intro w h
    simp [reviewersBlocks, List.length_pos.mpr h]
  · intro w h
    cases hc : w.createdBy with
    | none => simp [authorBlocks, hc]
    | some c =>
      rw [hc] at h
      simp [jsTruthyStr] at h
      simp [authorBlocks, hc, h]
  · intro w h
    cases hc : w.createdBy with
    | none => rw [hc] at h; simp [jsTruthyStr] at h
    | some c =>
      rw [hc] at h
      simp [jsTruthyStr] at h
      simp [authorBlocks, hc, h]

/-- Helper: the only error `formatUserMapping` can produce is the fixed
configuration message. -/
theorem formatUserMapping_error_msg (s e : String) :
    formatUserMapping s = Except.error e → e = userMappingErrMsg := by
  intro h
  unfold formatUserMapping at h
  cases hp : jsonParse s with
  | none => rw [hp] at h; cases h; rfl
  | some j =>
    rw [hp] at h
    cases ho : ownEntries j with
    | none =>
      simp [ho] at h
      first
      | exact h
      | exact h.symm
    | some entries => simp [ho] at h

/-- C5: once the event is accepted and the user mapping parses, credential
validation behaves exactly as specified: both credentials empty fails with
the at-least-one message; a bot token without a channel id fails with the
channel-required message; a bot token with a channel id, or a webhook URL
without a bot token, passes validation and delivery is attempted. -/
theorem run_credential_validation (ctx : GithubContext) (raw : RawInputs) (resp : PostResponse)
    (hv : isValidEvent ctx = true)
    (hm : ∃ m, formatUserMapping (effectiveMapping raw) = Except.ok m) :
    (raw.botToken = "" ∧ raw.webhookUrl = "" →
       run ctx raw resp = (RunOutcome.failed needTokenMsg, [])) ∧
    (raw.botToken ≠ "" ∧ raw.channelId = "" →
       run ctx raw resp = (RunOutcome.failed needChannelMsg, [])) ∧
    (raw.botToken ≠ "" ∧ raw.channelId ≠ "" →
       (run ctx raw resp).1 = RunOutcome.completed ∧
       Call.postMessage ∈ (run ctx raw resp).2) ∧
    (raw.botToken = "" ∧ raw.webhookUrl ≠ "" →
       run ctx raw resp = (RunOutcome.completed, [Call.webhookSend])) := by
  obtain ⟨m, hm⟩ := hm
  refine ⟨?_, ?_, ?_, ?_⟩
  · rintro ⟨h1, h2⟩
    simp [run, hv, hm, h1, h2]
  · rintro ⟨h1, h2⟩
    simp [run, hv, hm, h1, h2]
  · rintro ⟨h1, h2⟩
    simp only [run, hv, hm]
    simp [h1, h2]
    split <;> simp
  · rintro ⟨h1, h2⟩
    simp [run, hv, hm, h1, h2]

/-- Witness for C5: an accepted event with every input empty fails with the
at-least-one-credential message. -/
theorem run_credential_validation_witness :
    run sampleCtxOpened ⟨"", "", "", "", ""⟩ ⟨none, none⟩ =
      (RunOutcome.failed needTokenMsg, []) :=
  (run_credential_validation sampleCtxOpened ⟨"", "", "", "", ""⟩ ⟨none, none⟩ (by decide)
    ⟨[], rfl⟩).1 ⟨rfl, rfl⟩

/-- C8: the reaction call is made only when the post-message response holds a
truthy timestamp and metadata scopes containing reactions:write, and the
webhook path (no bot token) never makes a reaction call. -/
theorem run_reaction_gating (ctx : GithubContext) (raw : RawInputs) (resp : PostResponse) :
    (Call.addReaction ∈ (run ctx raw resp).2 →
       (∃ t, resp.ts = some t ∧ t ≠ "") ∧
       (∃ scopes, resp.metadata_scopes = some scopes ∧ "reactions:write" ∈ scopes)) ∧
    (raw.botToken = "" → Call.addReaction ∉ (run ctx raw resp).2) := by
  constructor
  · intro hmem
    by_cases hval : isValidEvent ctx
    · simp only [run, hval] at hmem
      cases hfm : formatUserMapping (effectiveMapping raw) with
      | error e => rw [hfm] at hmem; simp at hmem
      | ok m =>
        rw [hfm] at hmem
        simp only [Bool.not_true, Bool.false_eq_true, if_false] at hmem
        split_ifs at hmem with h1 h2 h3 h4 <;> simp at hmem
        rw [Bool.and_eq_true] at h4
        obtain ⟨hts, hsc⟩ := h4
        constructor
        · cases ht : resp.ts with
          | none => rw [ht] at hts; simp [jsTruthyStr] at hts
          | some t =>
            rw [ht] at hts
            simp [jsTruthyStr] at hts
            exact ⟨t, rfl, hts⟩
        · cases hs : resp.metadata_scopes with
          | none => simp [scopesHaveReactions, hs] at hsc
          | some scopes =>
            simp [scopesHaveReactions, hs, List.contains] at hsc
            exact ⟨scopes, rfl, hsc⟩
    · simp [run, hval] at hmem
  · intro hb
    by_cases hval : isValidEvent ctx
    · simp only [run, hval]
      cases hfm : formatUserMapping (effectiveMapping raw) with
      | error e => simp
      | ok m =>
        simp only [Bool.not_true, Bool.false_eq_true, if_false]
        split_ifs with h1 h2 h3 <;> simp_all
    · simp [run, hval]

/-- Witness for C8: the webhook path of a concrete run makes no reaction
call. -/
theorem run_reaction_gating_witness :
    Call.addReaction ∉ (run sampleCtxOpened ⟨"", "", "", "https://wh", ""⟩ ⟨none, none⟩).2 :=
  (run_reaction_gating sampleCtxOpened ⟨"", "", "", "https://wh", ""⟩ ⟨none, none⟩).2 rfl

/-- C9: for every accepted event, a user mapping that does not parse as JSON
fails the run immediately (before any delivery call) with the descriptive
configuration message, and a missing credential combination fails the run
immediately with a descriptive message (the mapping message when the mapping
is also bad, else the specific credential message). -/
theorem run_config_errors (ctx : GithubContext) (raw : RawInputs) (resp : PostResponse)
    (hv : isValidEvent ctx = true) :
    (jsonParse (effectiveMapping raw) = none →
       run ctx raw resp = (RunOutcome.failed userMappingErrMsg, [])) ∧
    (raw.botToken = "" ∧ raw.webhookUrl = "" →
       run ctx raw resp = (RunOutcome.failed userMappingErrMsg, []) ∨
       run ctx raw resp = (RunOutcome.failed needTokenMsg, [])) ∧
    (raw.botToken ≠ "" ∧ raw.channelId = "" →
       run ctx raw resp = (RunOutcome.failed userMappingErrMsg, []) ∨
       run ctx raw resp = (RunOutcome.failed needChannelMsg, [])) := by
  refine ⟨?_, ?_, ?_⟩
  · intro hp
    simp [run, hv, formatUserMapping, hp]
  · rintro ⟨h1, h2⟩
    cases hfm : formatUserMapping (effectiveMapping raw) with
    | error e =>
      left
      have := formatUserMapping_error_msg _ _ hfm
      subst this
      simp [run, hv, hfm]
    | ok m =>
      right
      simp [run, hv, hfm, h1, h2]
  · rintro ⟨h1, h2⟩
    cases hfm : formatUserMapping (effectiveMapping raw) with
    | error e =>
      left
      have := formatUserMapping_error_msg _ _ hfm
      subst this
      simp [run, hv, hfm]
    | ok m =>
      right
      simp [run, hv, hfm, h1, h2]

/-- Witness for C9: a concrete accepted run with a non-JSON mapping fails
with the configuration message and performs no delivery call. -/
theorem run_config_errors_witness :
    run sampleCtxOpened ⟨"", "tok", "C1", "", "not json"⟩ ⟨none, none⟩ =
      (RunOutcome.failed userMappingErrMsg, []) :=
  (run_config_errors sampleCtxOpened ⟨"", "tok", "C1", "", "not json"⟩ ⟨none, none⟩
    (by decide)).1 rfl

/-- Helper: membership in an index-ordered insertion. -/
theorem mem_insertIdxKey (a k : String) (l : List String) :
    a ∈ insertIdxKey k l ↔ a = k ∨ a ∈ l := by
  induction l with
  | nil => simp [insertIdxKey]
  | cons x xs ih =>
    simp only [insertIdxKey]
    split
    · simp
    · simp [ih]
      tauto

/-- Helper: sorting the array-index keys preserves membership. -/
theorem mem_sortIdxKeys (a : String) (l : List String) :
    a ∈ sortIdxKeys l ↔ a ∈ l := by
  induction l with
  | nil => simp [sortIdxKeys]
  | cons x xs ih => simp [sortIdxKeys, mem_insertIdxKey, ih]

/-- Helper: the keys enumerated by `Object.keys` are exactly the object
keys. -/
theorem mem_jsObjectKeys (k : String) (fields : List (String × Json)) :
    k ∈ jsObjectKeys fields ↔ k ∈ fields.map Prod.fst := by
  simp only [jsObjectKeys, List.mem_append, mem_sortIdxKeys, List.mem_filter]
  by_cases h : isArrayIndex k = true <;> simp [h]

/-- Helper: a successful property access yields an entry of the object. -/
theorem objGet_mem (fields : List (String × Json)) (k : String) (v : Json) :
    objGet fields k = some v → (k, v) ∈ fields := by
  intro h
  simp only [objGet, Option.map_eq_some'] at h
  obtain ⟨kv, hfind, hv⟩ := h
  have hmem := List.mem_of_find?_eq_some hfind
  have hp := List.find?_some hfind
  cases kv with
  | mk k0 v0 =>
    simp at hp hv
    subst hp
    subst hv
    exact hmem

/-- Helper: with unique keys, every entry is found by property access. -/
theorem objGet_of_mem_nodup (fields : List (String × Json)) (k : String) (v : Json)
    (hnd : (fields.map Prod.fst).Nodup) (hmem : (k, v) ∈ fields) :
    objGet fields k = some v := by
  induction fields with
  | nil => simp at hmem
  | cons kv rest ih =>
    simp only [List.map_cons, List.nodup_cons] at hnd
    obtain ⟨hk0, hnd2⟩ := hnd
    rcases List.mem_cons.mp hmem with heq | htail
    · subst heq
      simp only [objGet]
      rw [List.find?_cons_of_pos _ (by simp)]
      rfl
    · cases kv with
      | mk k0 v0 =>
        by_cases hkk : k0 = k
        · subst hkk
          exfalso
          exact hk0 (List.mem_map.mpr ⟨(k0, v), htail, rfl⟩)
        · have hrec := ih hnd2 htail
          simp only [objGet] at hrec ⊢
          rw [List.find?_cons_of_neg _ (by simp [hkk])]
          exact hrec

/-- Helper: with unique keys, the entries assembled from `Object.keys` and
property access are exactly the entries of the object. -/
theorem mem_objEntries (fields : List (String × Json)) (k : String) (v : Json)
    (hnd : (fields.map Prod.fst).Nodup) :
    ((k, v) ∈ (jsObjectKeys fields).filterMap fun k2 => (objGet fields k2).map fun w => (k2, w)) ↔
      (k, v) ∈ fields := by
  constructor
  · intro h
    obtain ⟨k2, _, hsome⟩ := List.mem_filterMap.mp h
    simp only [Option.map_eq_some'] at hsome
    obtain ⟨w, hget, heq⟩ := hsome
    cases heq
    exact objGet_mem _ _ _ hget
  · intro h
    refine List.mem_filterMap.mpr ⟨k, ?_, ?_⟩
    · exact (mem_jsObjectKeys k fields).mpr (List.mem_map.mpr ⟨(k, v), h, rfl⟩)
    · rw [objGet_of_mem_nodup fields k v hnd h]
      rfl

/-- C6: on an input that parses as a JSON object (keys of a parsed object
are unique), formatUserMapping succeeds and its result holds exactly the
entries of the object whose values are truthy; on an input that does not
parse as JSON it raises the fixed configuration error; the concrete example
with a truthy and an empty value keeps exactly the truthy entry. -/
theorem formatUserMapping_spec (s : String) (fields : List (String × Json)) :
    (jsonParse s = some (Json.obj fields) → (fields.map Prod.fst).Nodup →
       ∃ m, formatUserMapping s = Except.ok m ∧
         ∀ k v, ((k, v) ∈ m ↔ (k, v) ∈ fields ∧ jsTruthyJson v = true)) ∧
    (jsonParse s = none → formatUserMapping s = Except.error userMappingErrMsg) ∧
    formatUserMapping "\x7b\"a\":\"X\",\"b\":\"\"\x7d" = Except.ok [("a", Json.str "X")] := by
  refine ⟨?_, ?_, rfl⟩
  · intro hp hnd
    refine ⟨((jsObjectKeys fields).filterMap fun k2 =>
        (objGet fields k2).map fun w => (k2, w)).filter fun kv => jsTruthyJson kv.2, ?_, ?_⟩
    · simp [formatUserMapping, hp, ownEntries]
    · intro k v
      rw [List.mem_filter, mem_objEntries fields k v hnd]
  · intro hp
    simp [formatUserMapping, hp]

/-- Witness for C6 at the concrete object of the claim. -/
theorem formatUserMapping_spec_witness :
    ∃ m, formatUserMapping "\x7b\"a\":\"X\",\"b\":\"\"\x7d" = Except.ok m ∧
      ∀ k v, ((k, v) ∈ m ↔
        (k, v) ∈ [("a", Json.str "X"), ("b", Json.str "")] ∧ jsTruthyJson v = true) :=
  (formatUserMapping_spec "\x7b\"a\":\"X\",\"b\":\"\"\x7d"
    [("a", Json.str "X"), ("b", Json.str "")]).1 rfl (by simp)

end Notifier
